import Mathlib

/- A shallow embedding of the tilerust server (src/main.rs): ingestion of
   timestamped geospatial points, time-window filtering, Web-Mercator tile
   math, density binning and color mapping.  Timestamps are modelled as
   integers counting microseconds since the Unix epoch (chrono's DateTime
   comparisons are total-order comparisons of instants, and every
   constructor used by the source produces at least microsecond
   granularity).  Finite float payloads are modelled as exact rationals or
   reals; non-finite f64/f32 values are tracked by an explicit tag. -/

namespace Tilerust

/-- Model of an f64 value: a finite rational payload or a non-finite tag
(NaN, +inf, -inf).  Non-finite values are representable because the source
applies no finiteness check to coordinates read from input files. -/
inductive F64 where
  | finite (q : ℚ)
  | nan
  | posInf
  | negInf
deriving DecidableEq

/-- Rust's f64::is_finite: true exactly on non-NaN, non-infinite values. -/
def F64.isFinite : F64 → Bool
  | .finite _ => true
  | _ => false

/-- Model of parquet::record::Field restricted to the variants the source
matches on (Double, Float, Int, Long, UInt, ULong, TimestampMillis,
TimestampMicros, Date, Str); every other variant is collapsed into `other`
since the source treats them all alike (no extracted value). -/
inductive PField where
  | double (v : F64)
  | float (v : F64)
  | int (v : ℤ)
  | long (v : ℤ)
  | uint (v : ℕ)
  | ulong (v : ℕ)
  | timestampMillis (v : ℤ)
  | timestampMicros (v : ℤ)
  | date (v : ℤ)
  | str (s : String)
  | other
deriving DecidableEq

/-- A parquet row: named columns in order, as exposed by
row.get_column_iter() in the source. -/
def Row : Type := List (String × PField)

/-- The column lookup loop shared by get_f64_by_name and
get_datetime_by_name: scan columns in order, return the first field whose
name matches (the source returns from inside the loop on the first name
match, even when the value cannot be coerced). -/
def findColumn : List (String × PField) → String → Option PField
  | [], _ => none
  | (n, f) :: rest, name => if n = name then some f else findColumn rest name

/-- Embedding of get_f64_by_name: numeric field variants are coerced to
f64; Double and Float pass their payload through unchanged (including
non-finite payloads), integer variants are exact conversions; any other
variant yields None. -/
def get_f64_by_name (row : Row) (name : String) : Option F64 :=
  match findColumn row name with
  | none => none
  | some field =>
    match field with
    | .double v => some v
    | .float v => some v
    | .int v => some (.finite v)
    | .long v => some (.finite v)
    | .uint v => some (.finite v)
    | .ulong v => some (.finite v)
    | _ => none

/-- Decimal value of a digit character. -/
def digitVal (c : Char) : ℕ := c.toNat - 48

/-- Read exactly n decimal digits, accumulating their value; fails when a
non-digit (or end of input) is hit first. -/
def takeDigits : ℕ → ℕ → List Char → Option (ℕ × List Char)
  | 0, acc, cs => some (acc, cs)
  | n + 1, acc, c :: cs =>
      if c.isDigit then takeDigits n (acc * 10 + digitVal c) cs else none
  | _ + 1, _, [] => none

/-- Consume one expected character. -/
def expectChar (c : Char) : List Char → Option (List Char)
  | d :: cs => if d = c then some cs else none
  | [] => none

/-- Gregorian leap-year rule. -/
def isLeapYear (y : ℕ) : Bool := y % 4 == 0 && (y % 100 != 0 || y % 400 == 0)

/-- Number of days in a month of a given year. -/
def daysInMonth (y m : ℕ) : ℕ :=
  if m = 2 then (if isLeapYear y then 29 else 28)
  else if m = 4 ∨ m = 6 ∨ m = 9 ∨ m = 11 then 30
  else 31

/-- Days from the Unix epoch (1970-01-01) to the civil date y-m-d, for
common-era years (the parsers below only produce four-digit years, so all
intermediate arithmetic stays in ℕ). -/
def daysFromCivil (y m d : ℕ) : ℤ :=
  let y2 := if m ≤ 2 then y - 1 else y
  let era := y2 / 400
  let yoe := y2 - era * 400
  let mp := if 2 < m then m - 3 else m + 9
  let doy := (153 * mp + 2) / 5 + (d - 1)
  let doe := yoe * 365 + yoe / 4 - yoe / 100 + doy
  (era * 146097 + doe : ℤ) - 719468

/-- Microseconds since the Unix epoch for a civil date-time with a UTC
offset given in seconds. -/
def civilToMicros (y m d h mi s : ℕ) (off : ℤ) : ℤ :=
  (daysFromCivil y m d * 86400 + (h * 3600 + mi * 60 + s : ℤ) - off) * 1000000

/-- Parse a calendar date YYYY-MM-DD (four-digit year, calendar-validated
month and day), returning the remaining input. -/
def parseDatePart (cs : List Char) : Option ((ℕ × ℕ × ℕ) × List Char) := do
  let (y, cs) ← takeDigits 4 0 cs
  let cs ← expectChar '-' cs
  let (m, cs) ← takeDigits 2 0 cs
  let cs ← expectChar '-' cs
  let (d, cs) ← takeDigits 2 0 cs
  if 1 ≤ m ∧ m ≤ 12 ∧ 1 ≤ d ∧ d ≤ daysInMonth y m then
    return ((y, m, d), cs)
  else none

/-- Parse a clock time HH:MM:SS, returning the remaining input. -/
def parseTimePart (cs : List Char) : Option ((ℕ × ℕ × ℕ) × List Char) := do
  let (h, cs) ← takeDigits 2 0 cs
  let cs ← expectChar ':' cs
  let (mi, cs) ← takeDigits 2 0 cs
  let cs ← expectChar ':' cs
  let (s, cs) ← takeDigits 2 0 cs
  if h ≤ 23 ∧ mi ≤ 59 ∧ s ≤ 59 then
    return ((h, mi, s), cs)
  else none

/-- Parse an RFC3339 offset terminating the input: Z (or z) for UTC, or a
signed +HH:MM / -HH:MM offset, returned in seconds. -/
def parseOffsetPart : List Char → Option ℤ
  | [c] => if c = 'Z' ∨ c = 'z' then some 0 else none
  | c :: cs =>
    if c = '+' ∨ c = '-' then
      match takeDigits 2 0 cs with
      | some (oh, cs2) =>
        match expectChar ':' cs2 with
        | some cs3 =>
          match takeDigits 2 0 cs3 with
          | some (om, []) =>
            if oh ≤ 23 ∧ om ≤ 59 then
              some (if c = '+' then (oh * 3600 + om * 60 : ℤ)
                    else -(oh * 3600 + om * 60 : ℤ))
            else none
          | _ => none
        | none => none
      | none => none
    else none
  | [] => none

/-- Modelled from the spec: chrono's DateTime::parse_from_rfc3339 (an
external collaborator of src/main.rs), on the RFC3339 profile the spec
names — date, a T (or t) separator, time, and a terminating numeric or Z
offset.  Fractional seconds and leap seconds are outside the modelled
subset.  The result is microseconds since the epoch, UTC. -/
def parse_from_rfc3339 (s : String) : Option ℤ := do
  let ((y, m, d), cs) ← parseDatePart s.toList
  match cs with
  | c :: cs2 =>
    if c = 'T' ∨ c = 't' then
      let ((h, mi, sec), rest) ← parseTimePart cs2
      let off ← parseOffsetPart rest
      return civilToMicros y m d h mi sec off
    else none
  | [] => none

/-- Modelled from the spec: chrono's NaiveDateTime::parse_from_str with the
naive "%Y-%m-%d %H:%M:%S" pattern (an external collaborator of
src/main.rs); the whole input must be consumed and the result is
interpreted as UTC. -/
def parse_naive (s : String) : Option ℤ := do
  let ((y, m, d), cs) ← parseDatePart s.toList
  let cs ← expectChar ' ' cs
  let ((h, mi, sec), rest) ← parseTimePart cs
  match rest with
  | [] => return civilToMicros y m d h mi sec 0
  | _ => none

/-- Embedding of get_datetime_by_name: the first column whose name matches
is coerced to a UTC instant according to its variant — millisecond epoch,
microsecond epoch, 32/64-bit integer epoch seconds, day-count date, or a
string parsed first as RFC3339 and, only when that fails, with the naive
"%Y-%m-%d %H:%M:%S" pattern.  chrono's out-of-range None (hundreds of
millennia away from the epoch) is not modelled; all values of interest are
in range. -/
def get_datetime_by_name (row : Row) (name : String) : Option ℤ :=
  match findColumn row name with
  | none => none
  | some field =>
    match field with
    | .timestampMillis v => some (v * 1000)
    | .timestampMicros v => some v
    | .int v => some (v * 1000000)
    | .long v => some (v * 1000000)
    | .date v => some (v * 86400000000)
    | .str s =>
      match parse_from_rfc3339 s with
      | some t => some t
      | none => parse_naive s
    | _ => none

/-- Embedding of the DataPoint struct: one indexed point in Web-Mercator
meters. -/
structure DataPoint where
  x : F64
  y : F64
deriving DecidableEq

/-- One iteration of the row loop in load_points_from_dir: extract the
coordinates (defaulting a missing or non-numeric field to 0.0), and when
the timestamp parses, append the point and update the running maximum
timestamp; rows without a parseable timestamp are dropped. -/
def ingestStep (acc : List (DataPoint × ℤ) × Option ℤ) (row : Row) :
    List (DataPoint × ℤ) × Option ℤ :=
  let x := (get_f64_by_name row "longitude").getD (.finite 0)
  let y := (get_f64_by_name row "latitude").getD (.finite 0)
  match get_datetime_by_name row "BaseDateTime" with
  | some ts =>
    let maxT : Option ℤ :=
      match acc.2 with
      | some m => if m < ts then some ts else some m
      | none => some ts
    (acc.1 ++ [(⟨x, y⟩, ts)], maxT)
  | none => acc

/-- The scan phase of load_points_from_dir over all rows yielded by the
directory walk (the walk itself and unreadable files are external
collaborators; the rows are presented in scan order). -/
def scanRows (rows : List Row) : List (DataPoint × ℤ) × Option ℤ :=
  rows.foldl ingestStep ([], none)

/-- Duration::hours(24) in microseconds. -/
def hours24 : ℤ := 24 * 3600 * 1000000

/-- Embedding of load_points_from_dir: scan all rows, then resolve the
effective window (end = explicit end or max observed timestamp; start =
explicit start or end minus 24 hours) and keep the points whose timestamp
lies in the closed window; when no row had a parseable timestamp the
result is empty. -/
def load_points_from_dir (rows : List Row) (start end_ : Option ℤ) :
    List DataPoint :=
  let scanned := scanRows rows
  match scanned.2 with
  | some max =>
    let end_time := end_.getD max
    let start_time := start.getD (end_time - hours24)
    (scanned.1.filter fun pts =>
      decide (start_time ≤ pts.2 ∧ pts.2 ≤ end_time)).map Prod.fst
  | none => []

/-- Specification-side view of the scan: the parsed (point, timestamp)
pairs of the rows, in scan order. -/
def parsedRows (rows : List Row) : List (DataPoint × ℤ) :=
  rows.filterMap fun row =>
    (get_datetime_by_name row "BaseDateTime").map fun ts =>
      ({ x := (get_f64_by_name row "longitude").getD (.finite 0),
         y := (get_f64_by_name row "latitude").getD (.finite 0) }, ts)

/-- Row builder for a point with finite coordinates and a microsecond
epoch timestamp column. -/
def tsRow (x y : ℚ) (ts : ℤ) : Row :=
  [("longitude", .double (.finite x)), ("latitude", .double (.finite y)),
   ("BaseDateTime", .timestampMicros ts)]

/-- A row whose longitude column holds a non-finite double and whose
timestamp parses. -/
def nanRow : Row :=
  [("longitude", .double .nan), ("latitude", .double (.finite 1)),
   ("BaseDateTime", .timestampMicros 0)]

/- ## Renderer: real-valued model of generate_tile and color_map -/

/-- Truncation of a real toward zero, the rounding of Rust float-to-int
casts. -/
noncomputable def truncR (v : ℝ) : ℤ := if 0 ≤ v then ⌊v⌋ else ⌈v⌉

/-- Rust saturating cast of an f64 to i32 (the `as i32` in the binning
loop): truncate toward zero, then clamp into the i32 range.  The NaN-to-0
case has no counterpart in the real-valued model. -/
noncomputable def f64_as_i32 (v : ℝ) : ℤ :=
  max (-(2 ^ 31)) (min (2 ^ 31 - 1) (truncR v))

/-- Rust saturating cast of an f32 to u8 (the `as u8` in color_map). -/
noncomputable def f32_as_u8 (v : ℝ) : ℕ := (max 0 (min 255 (truncR v))).toNat

/-- An RGBA pixel with 8-bit channels. -/
structure Rgba where
  r : ℕ
  g : ℕ
  b : ℕ
  a : ℕ
deriving DecidableEq

/-- Model of an f32 input to color_map: a finite real payload or a
non-finite tag. -/
inductive F32 where
  | finite (x : ℝ)
  | nan
  | posInf
  | negInf

/-- Rust f32::is_finite. -/
def F32.isFinite : F32 → Bool
  | .finite _ => true
  | _ => false

/-- Embedding of color_map.  The Rust guard `!v.is_finite() || v <= 0.0`
sends every non-finite input (NaN and both infinities fail is_finite; the
comparison with 0.0 is false on NaN) and every finite v ≤ 0 to the fully
transparent pixel; otherwise intensity = v.powf(0.5).clamp(0.0, 1.0),
r = (255.0·intensity) as u8, and the pixel is (r, 0, 255 − r, 255). -/
noncomputable def color_map (v : F32) : Rgba :=
  match v with
  | .finite x =>
    if x ≤ 0 then ⟨0, 0, 0, 0⟩
    else
      let intensity := min (max (x ^ ((1 : ℝ) / 2)) 0) 1
      let r := f32_as_u8 (255 * intensity)
      ⟨r, 0, 255 - r, 255⟩
  | _ => ⟨0, 0, 0, 0⟩

/-- Number of cells of the 256×256 grid; flat index i is pixel
(i % 256, i / 256), exactly the layout of the counts vector and of
put_pixel in generate_tile. -/
def gridSize : ℕ := 256 * 256

/-- counts.iter().max().unwrap_or(0) over the flat counts grid. -/
def maxCount (counts : ℕ → ℕ) : ℕ := (Finset.range gridSize).sup counts

/-- Binning of one range-query point: the cell is computed with Rust
float-to-int casts from the point's position inside the bounding box (y
inverted so north is up); a point mapping outside the 256×256 grid is
discarded (no cell). -/
noncomputable def binPoint (xleft xright ybottom ytop px py : ℝ) : Option ℕ :=
  let pxi := f64_as_i32 ((px - xleft) / (xright - xleft) * 256)
  let pyi := f64_as_i32 ((ytop - py) / (ytop - ybottom) * 256)
  if 0 ≤ pxi ∧ pxi < 256 ∧ 0 ≤ pyi ∧ pyi < 256 then
    some (pyi * 256 + pxi).toNat
  else none

/-- One iteration of the binning loop of generate_tile: increment the
count of the point's cell, or leave the grid unchanged when the point is
discarded. -/
noncomputable def processPoint (xl xr yb yt : ℝ) (cnts : ℕ → ℕ) (p : ℝ × ℝ) :
    ℕ → ℕ :=
  match binPoint xl xr yb yt p.1 p.2 with
  | some idx => fun j => if j = idx then cnts j + 1 else cnts j
  | none => cnts

/-- The full binning loop over the points returned by the range query,
starting from the zero-initialized counts vector. -/
noncomputable def accumCounts (xl xr yb yt : ℝ) (pts : List (ℝ × ℝ)) :
    ℕ → ℕ :=
  pts.foldl (processPoint xl xr yb yt) fun _ => 0

/-- The coloring stage of generate_tile: when the maximum cell count is
positive every pixel gets color_map of the log-scaled density of its cell
(ln_1p(count) / ln_1p(max)); otherwise the zero-initialized, fully
transparent image buffer is returned untouched. -/
noncomputable def tileImage (counts : ℕ → ℕ) : ℕ → Rgba :=
  if 0 < maxCount counts then
    fun i =>
      color_map (.finite
        (Real.log (1 + (counts i : ℝ)) / Real.log (1 + (maxCount counts : ℝ))))
  else fun _ => ⟨0, 0, 0, 0⟩

open Classical in
/-- Claim C3's pixel formula transcribed from the specification words:
value = ln(1+count)/ln(1+maxCount), intensity = clamp(sqrt value, 0, 1),
red = round(255·intensity), blue = 255 − red, green = 0, alpha = 255 when
value > 0 and 0 when value = 0.  Kept separate from the source embedding
so the two can be compared. -/
noncomputable def specC3Pixel (count maxC : ℕ) : Rgba :=
  let value := Real.log (1 + (count : ℝ)) / Real.log (1 + (maxC : ℝ))
  let intensity := min (max (Real.sqrt value) 0) 1
  let r := (round (255 * intensity) : ℤ).toNat
  ⟨r, 0, 255 - r, if 0 < value then 255 else 0⟩

/-- A concrete counts grid: one cell with count 1, one with count 15,
everything else empty. -/
def cnts115 : ℕ → ℕ := fun i => if i = 0 then 1 else if i = 1 then 15 else 0

/- ## Coordinate projector -/

/-- Embedding of lnglat_to_meters: Web-Mercator (EPSG:3857) projection of
a lon/lat pair in degrees to meters. -/
noncomputable def lnglat_to_meters (lon lat : ℝ) : ℝ × ℝ :=
  let origin_shift := Real.pi * 6378137
  (lon * origin_shift / 180,
   Real.log (Real.tan ((90 + lat) * Real.pi / 360)) * origin_shift / Real.pi)

/-- Embedding of tile2mercator: slippy-tile address to the Web-Mercator
meters of the tile's top-left corner. -/
noncomputable def tile2mercator (xtile ytile zoom : ℕ) : ℝ × ℝ :=
  let n := (2 : ℝ) ^ zoom
  let lon_deg := (xtile : ℝ) / n * 360 - 180
  let lat_rad := Real.arctan (Real.sinh (Real.pi * (1 - 2 * (ytile : ℝ) / n)))
  let lat_deg := lat_rad * (180 / Real.pi)
  lnglat_to_meters lon_deg lat_deg

/-- Modelled from the spec: the meters → lon/lat conversion used by the
projection round-trip property of §8.  src/main.rs contains no such
function, so it is taken as the mathematical inverse of the spec's
lngLatToMeters formulas. -/
noncomputable def meters_to_lnglat (m : ℝ × ℝ) : ℝ × ℝ :=
  let origin_shift := Real.pi * 6378137
  (m.1 * 180 / origin_shift,
   360 / Real.pi * Real.arctan (Real.exp (m.2 * Real.pi / origin_shift)) - 90)

/- ## Shared-state model for the tile endpoint -/

/-- Contents-plus-poison model of the shared Arc<Mutex<RTree<DataPoint>>>.
The poisoned flag is std::sync::Mutex poisoning: a thread that panics
while holding the guard leaves the mutex poisoned, and every later
lock().unwrap() panics. -/
structure ServerState where
  tree : List DataPoint
  poisoned : Bool
deriving DecidableEq

/-- Outcome of one tile request. -/
inductive TileOutcome where
  | ok
  | panicked
deriving DecidableEq

/-- Sequential model of the tile handler: it takes the index lock with
lock().unwrap() (which panics if the mutex is already poisoned), renders,
and PNG-encodes with write_to(...).unwrap() while the guard is still held
— so an encoding failure panics the handler and poisons the mutex.  The
index contents are never modified by a tile request. -/
def tileRequest (encodeOk : Bool) (s : ServerState) :
    TileOutcome × ServerState :=
  if s.poisoned then (.panicked, s)
  else if encodeOk then (.ok, s)
  else (.panicked, { s with poisoned := true })

/- ## Lemmas about the scan phase -/

/-- The point list accumulated by the row loop is the accumulator followed
by the parsed rows in scan order. -/
theorem ingest_foldl_fst (rows : List Row) :
    ∀ (l : List (DataPoint × ℤ)) (o : Option ℤ),
      (rows.foldl ingestStep (l, o)).1 = l ++ parsedRows rows := by
  induction rows with
  | nil => intro l o; simp [parsedRows]
  | cons r rows ih =>
    intro l o
    rw [List.foldl_cons]
    cases h : get_datetime_by_name r "BaseDateTime" with
    | none =>
      simp only [ingestStep, h]
      rw [ih]
      simp [parsedRows, List.filterMap_cons, h]
    | some ts =>
      simp only [ingestStep, h]
      rw [ih]
      simp [parsedRows, List.filterMap_cons, h]

/-- With a running maximum already present, the row loop folds max over
the remaining parsed timestamps. -/
theorem ingest_foldl_snd_some (rows : List Row) :
    ∀ (l : List (DataPoint × ℤ)) (m : ℤ),
      (rows.foldl ingestStep (l, some m)).2 =
        some (((parsedRows rows).map Prod.snd).foldl max m) := by
  induction rows with
  | nil => intro l m; simp [parsedRows]
  | cons r rows ih =>
    intro l m
    rw [List.foldl_cons]
    cases h : get_datetime_by_name r "BaseDateTime" with
    | none =>
      simp only [ingestStep, h]
      rw [ih]
      simp [parsedRows, List.filterMap_cons, h]
    | some ts =>
      have hmax : (if m < ts then some ts else some m) = some (max m ts) := by
        rcases le_or_lt ts m with hm | hm
        · rw [if_neg (not_lt.mpr hm), max_eq_left hm]
        · rw [if_pos hm, max_eq_right hm.le]
      simp only [ingestStep, h, hmax]
      rw [ih]
      simp [parsedRows, List.filterMap_cons, h]

/-- Starting from no running maximum, the row loop computes the maximum of
the parsed timestamps (none exactly when no row parsed). -/
theorem ingest_foldl_snd_none (rows : List Row) :
    ∀ (l : List (DataPoint × ℤ)),
      (rows.foldl ingestStep (l, none)).2 =
        ((parsedRows rows).map Prod.snd).max? := by
  induction rows with
  | nil => intro l; simp [parsedRows]
  | cons r rows ih =>
    intro l
    rw [List.foldl_cons]
    cases h : get_datetime_by_name r "BaseDateTime" with
    | none =>
      simp only [ingestStep, h]
      rw [ih]
      simp [parsedRows, List.filterMap_cons, h]
    | some ts =>
      simp only [ingestStep, h]
      rw [ingest_foldl_snd_some]
      have hp : parsedRows (r :: rows) =
          ({ x := (get_f64_by_name r "longitude").getD (.finite 0),
             y := (get_f64_by_name r "latitude").getD (.finite 0) }, ts) ::
            parsedRows rows := by
        simp [parsedRows, List.filterMap_cons, h]
      rw [hp, List.map_cons]
      rfl

/-- The scan result: parsed rows in order, and the maximum parsed
timestamp. -/
theorem scanRows_fst (rows : List Row) : (scanRows rows).1 = parsedRows rows := by
  have h := ingest_foldl_fst rows [] none
  simpa [scanRows] using h

/-- The running maximum after the scan is the maximum parsed timestamp. -/
theorem scanRows_snd (rows : List Row) :
    (scanRows rows).2 = ((parsedRows rows).map Prod.snd).max? :=
  ingest_foldl_snd_none rows []

/-- Restatement of load_points_from_dir through the parsed-rows view. -/
theorem load_points_via_parsed (rows : List Row) (s e : Option ℤ) :
    load_points_from_dir rows s e =
      match ((parsedRows rows).map Prod.snd).max? with
      | some M =>
        ((parsedRows rows).filter fun pt =>
          decide (s.getD (e.getD M - hours24) ≤ pt.2 ∧ pt.2 ≤ e.getD M)).map
          Prod.fst
      | none => [] := by
  simp only [load_points_from_dir, scanRows_fst, scanRows_snd]

/-- When some row parsed, the result is the window filter over the parsed
rows, with the window resolved from the maximum observed timestamp M. -/
theorem load_points_window (rows : List Row) (s e : Option ℤ) (M : ℤ)
    (hM : M ∈ (parsedRows rows).map Prod.snd)
    (hub : ∀ t ∈ (parsedRows rows).map Prod.snd, t ≤ M) :
    load_points_from_dir rows s e =
      ((parsedRows rows).filter fun pt =>
        decide (s.getD (e.getD M - hours24) ≤ pt.2 ∧ pt.2 ≤ e.getD M)).map
        Prod.fst := by
  haveI : Std.Antisymm ((· : ℤ) ≤ ·) := ⟨fun h1 h2 => le_antisymm h1 h2⟩
  have hmax : ((parsedRows rows).map Prod.snd).max? = some M :=
    (List.max?_eq_some_iff (fun a => le_refl a) (fun a b => max_choice a b)
      (fun a b c => max_le_iff)).mpr ⟨hM, hub⟩
  rw [load_points_via_parsed, hmax]

/-- When no row parsed a timestamp, the result is empty. -/
theorem load_points_empty (rows : List Row) (s e : Option ℤ)
    (h : parsedRows rows = []) : load_points_from_dir rows s e = [] := by
  rw [load_points_via_parsed, h]
  rfl

/- ## Claim theorems: ingestion -/

/-- C1: for every ingestion run, when at least one row has a parseable
timestamp the effective window is end = explicit end or the maximum
observed timestamp M, start = explicit start or end minus 24 hours, and
the returned points are exactly those whose timestamp lies in the closed
window; with points at {T-48h, T-30h, T-12h, T} and no explicit window
exactly the points at {T-12h, T} are returned; and when no row has a
parseable timestamp the result is empty regardless of explicit bounds. -/
theorem C1_window_resolution :
    (∀ (rows : List Row) (s e : Option ℤ),
      parsedRows rows = [] → load_points_from_dir rows s e = []) ∧
    (∀ (rows : List Row) (s e : Option ℤ) (M : ℤ),
      M ∈ (parsedRows rows).map Prod.snd →
      (∀ t ∈ (parsedRows rows).map Prod.snd, t ≤ M) →
      load_points_from_dir rows s e =
        ((parsedRows rows).filter fun pt =>
          decide (s.getD (e.getD M - hours24) ≤ pt.2 ∧ pt.2 ≤ e.getD M)).map
          Prod.fst) ∧
    (∀ (T : ℤ) (x1 y1 x2 y2 x3 y3 x4 y4 : ℚ),
      load_points_from_dir
        [tsRow x1 y1 (T - 48 * 3600 * 1000000),
         tsRow x2 y2 (T - 30 * 3600 * 1000000),
         tsRow x3 y3 (T - 12 * 3600 * 1000000),
         tsRow x4 y4 T] none none =
        [{ x := .finite x3, y := .finite y3 },
         { x := .finite x4, y := .finite y4 }]) := by
  refine ⟨load_points_empty, load_points_window, ?_⟩
  intro T x1 y1 x2 y2 x3 y3 x4 y4
  have hparsed : parsedRows
      [tsRow x1 y1 (T - 48 * 3600 * 1000000),
       tsRow x2 y2 (T - 30 * 3600 * 1000000),
       tsRow x3 y3 (T - 12 * 3600 * 1000000),
       tsRow x4 y4 T] =
      [({ x := .finite x1, y := .finite y1 }, T - 48 * 3600 * 1000000),
       ({ x := .finite x2, y := .finite y2 }, T - 30 * 3600 * 1000000),
       ({ x := .finite x3, y := .finite y3 }, T - 12 * 3600 * 1000000),
       ({ x := .finite x4, y := .finite y4 }, T)] := by
    simp [parsedRows, tsRow, get_datetime_by_name, get_f64_by_name, findColumn]
  rw [load_points_window _ none none T (by rw [hparsed]; simp)
      (by rw [hparsed]; intro t ht; simp at ht; omega), hparsed]
  simp only [Option.getD_none, List.filter_cons, List.filter_nil,
    decide_eq_true_eq, hours24]
  rw [if_neg (by omega), if_neg (by omega), if_pos (by omega),
    if_pos (by omega)]
  rfl

/-- C1 witness: the theorem instantiated on concrete inputs — an empty
scan gives an empty result, a singleton parsed row is returned when it
lies in the default window, and the four-timestamp example at T = 0. -/
theorem C1_window_resolution_witness :
    load_points_from_dir [[("longitude", PField.double (.finite 1))]] none
      none = [] ∧
    load_points_from_dir [tsRow 1 2 5] none none =
      [{ x := .finite 1, y := .finite 2 }] ∧
    load_points_from_dir
      [tsRow 1 1 (0 - 48 * 3600 * 1000000), tsRow 2 2 (0 - 30 * 3600 * 1000000),
       tsRow 3 3 (0 - 12 * 3600 * 1000000), tsRow 4 4 0] none none =
      [{ x := .finite 3, y := .finite 3 }, { x := .finite 4, y := .finite 4 }] := by
  refine ⟨C1_window_resolution.1 _ none none (by decide), ?_, ?_⟩
  · have h := C1_window_resolution.2.1 [tsRow 1 2 5] none none 5
      (by decide) (by decide)
    rw [h]
    decide
  · exact C1_window_resolution.2.2 0 1 1 2 2 3 3 4 4

/-- C4 (code-bug evaluation): a row whose longitude column holds a
non-finite double and whose timestamp parses is ingested verbatim — the
NaN coordinate reaches the point set handed to RTree::bulk_load.  The
source applies no finiteness check anywhere on the ingestion path. -/
theorem C4_nonfinite_coordinate_ingested :
    load_points_from_dir [nanRow] none none =
      [{ x := F64.nan, y := F64.finite 1 }] ∧
    F64.isFinite F64.nan = false := by
  decide

/-- C7: a string timestamp column is parsed first as RFC3339 (the
conclusion is whatever RFC3339 parsing yields whenever it succeeds), only
on RFC3339 failure with the naive pattern; the claim's two sample strings
parse via the stated routes, and a row whose string parses under neither
pattern is dropped and contributes nothing to the loaded point set. -/
theorem C7_timestamp_fallback :
    (∀ (row : Row) (name s : String) (t : ℤ),
      findColumn row name = some (.str s) →
      parse_from_rfc3339 s = some t →
      get_datetime_by_name row name = some t) ∧
    (∀ (row : Row) (name s : String),
      findColumn row name = some (.str s) →
      parse_from_rfc3339 s = none →
      get_datetime_by_name row name = parse_naive s) ∧
    parse_from_rfc3339 "2023-05-01T10:00:00Z" = some 1682935200000000 ∧
    parse_from_rfc3339 "2023-05-01 10:00:00" = none ∧
    parse_naive "2023-05-01 10:00:00" = some 1682935200000000 ∧
    (∀ (rows1 rows2 : List Row) (row : Row) (s e : Option ℤ),
      get_datetime_by_name row "BaseDateTime" = none →
      load_points_from_dir (rows1 ++ row :: rows2) s e =
        load_points_from_dir (rows1 ++ rows2) s e) := by
  refine ⟨?_, ?_, by decide, by decide, by decide, ?_⟩
  · intro row name s t hcol hrfc
    simp [get_datetime_by_name, hcol, hrfc]
  · intro row name s hcol hrfc
    simp [get_datetime_by_name, hcol, hrfc]
  · intro rows1 rows2 row s e h
    have hp : parsedRows (rows1 ++ row :: rows2) = parsedRows (rows1 ++ rows2) := by
      simp [parsedRows, List.filterMap_append, List.filterMap_cons, h]
    rw [load_points_via_parsed, load_points_via_parsed, hp]

/-- C7 witness: the fallback theorem instantiated on concrete rows — the
RFC3339 sample, the naive sample, and an unparseable string row dropped
from a run containing one good row. -/
theorem C7_timestamp_fallback_witness :
    get_datetime_by_name [("BaseDateTime", PField.str "2023-05-01T10:00:00Z")]
      "BaseDateTime" = some 1682935200000000 ∧
    get_datetime_by_name [("BaseDateTime", PField.str "2023-05-01 10:00:00")]
      "BaseDateTime" = parse_naive "2023-05-01 10:00:00" ∧
    load_points_from_dir
      ([tsRow 1 2 5] ++
        ([[("BaseDateTime", PField.str "not a time")]] : List Row)) none none =
    load_points_from_dir ([tsRow 1 2 5] ++ []) none none :=
  ⟨C7_timestamp_fallback.1 [("BaseDateTime", PField.str "2023-05-01T10:00:00Z")]
      "BaseDateTime" "2023-05-01T10:00:00Z"
      1682935200000000 (by decide) (by decide),
   C7_timestamp_fallback.2.1 [("BaseDateTime", PField.str "2023-05-01 10:00:00")]
      "BaseDateTime" "2023-05-01 10:00:00" (by decide) (by decide),
   C7_timestamp_fallback.2.2.2.2.2 [tsRow 1 2 5] []
      [("BaseDateTime", PField.str "not a time")] none none (by decide)⟩

/-- C8: a run whose resolved window has both bounds present with
start strictly after end yields the explicit empty point set. -/
theorem C8_inverted_window_empty (rows : List Row) (s e : ℤ) (h : e < s) :
    load_points_from_dir rows (some s) (some e) = [] := by
  rw [load_points_via_parsed]
  cases hm : ((parsedRows rows).map Prod.snd).max? with
  | none => rfl
  | some M =>
    simp only [Option.getD_some]
    rw [List.filter_eq_nil_iff.mpr ?_, List.map_nil]
    intro pt _
    simp only [decide_eq_true_eq]
    omega

/-- C8 witness: a one-row run with start = 1, end = 0 returns no points. -/
theorem C8_inverted_window_empty_witness :
    (0 : ℤ) < 1 ∧ load_points_from_dir [tsRow 1 2 5] (some 1) (some 0) = [] :=
  ⟨by norm_num, C8_inverted_window_empty [tsRow 1 2 5] 1 0 (by norm_num)⟩

/- ## Claim theorems: renderer and shared state -/

/-- C9 (code-bug evaluation): a tile request whose PNG encoding fails
panics via unwrap while the index guard is held.  The request fails alone
and the index contents are untouched, but the mutex is poisoned: a later
request with a working encoder still panics at lock().unwrap(), so the
shared index is not usable by other requests, contrary to the claim. -/
theorem C9_encode_failure_poisons_lock :
    (tileRequest false ⟨[{ x := .finite 1, y := .finite 2 }], false⟩).1 =
      .panicked ∧
    (tileRequest false ⟨[{ x := .finite 1, y := .finite 2 }], false⟩).2.tree =
      [{ x := .finite 1, y := .finite 2 }] ∧
    (tileRequest true
      (tileRequest false ⟨[{ x := .finite 1, y := .finite 2 }], false⟩).2).1 =
      .panicked := by
  decide

/-- C10: color_map is total and collapses every non-finite input (NaN and
both infinities) and every finite value ≤ 0 to the fully transparent
pixel (0, 0, 0, 0). -/
theorem C10_color_map_total (v : F32)
    (h : v = .nan ∨ v = .posInf ∨ v = .negInf ∨ ∃ x, v = .finite x ∧ x ≤ 0) :
    color_map v = ⟨0, 0, 0, 0⟩ := by
  rcases h with h | h | h | ⟨x, h, hx⟩ <;> subst h
  · rfl
  · rfl
  · rfl
  · simp [color_map, if_pos hx]

/-- C10 witness: color_map at NaN and at the finite value 0. -/
theorem C10_color_map_total_witness :
    color_map .nan = ⟨0, 0, 0, 0⟩ ∧ color_map (.finite 0) = ⟨0, 0, 0, 0⟩ :=
  ⟨C10_color_map_total _ (Or.inl rfl),
   C10_color_map_total _ (Or.inr (Or.inr (Or.inr ⟨0, rfl, le_refl 0⟩)))⟩

/-- C6: whenever the maximum cell count is zero the rendered 256×256 image
is fully transparent, and in particular an empty range-query result (no
indexed points in the bounding box) yields a fully transparent image. -/
theorem C6_zero_max_transparent :
    (∀ counts : ℕ → ℕ, maxCount counts = 0 →
      ∀ i, tileImage counts i = ⟨0, 0, 0, 0⟩) ∧
    (∀ xl xr yb yt : ℝ, ∀ i,
      tileImage (accumCounts xl xr yb yt []) i = ⟨0, 0, 0, 0⟩) := by
  constructor
  · intro counts h i
    simp [tileImage, h]
  · intro xl xr yb yt i
    have h : maxCount (accumCounts xl xr yb yt []) = 0 :=
      Nat.le_antisymm (Finset.sup_le fun j _ => le_refl 0) (Nat.zero_le _)
    simp [tileImage, h]

/-- C6 witness: the all-zero counts grid has max zero and renders the
transparent pixel at index 0. -/
theorem C6_zero_max_transparent_witness :
    maxCount (fun _ => 0) = 0 ∧ tileImage (fun _ => 0) 0 = ⟨0, 0, 0, 0⟩ := by
  have h : maxCount (fun _ => 0) = 0 :=
    Nat.le_antisymm (Finset.sup_le fun j _ => le_refl 0) (Nat.zero_le _)
  exact ⟨h, C6_zero_max_transparent.1 _ h 0⟩

/-- The Rust float-to-i32 cast agrees with the mathematical floor on
values in [0, 256]: truncation toward zero is floor on nonnegative
values, and the i32 saturation bounds are never hit. -/
theorem f64_as_i32_eq_floor (v : ℝ) (h0 : 0 ≤ v) (h1 : v ≤ 256) :
    f64_as_i32 v = ⌊v⌋ := by
  unfold f64_as_i32 truncR
  rw [if_pos h0]
  have hf0 : (0 : ℤ) ≤ ⌊v⌋ := Int.floor_nonneg.mpr h0
  have hf1 : ⌊v⌋ ≤ 256 := by
    calc ⌊v⌋ ≤ ⌊(256 : ℝ)⌋ := Int.floor_le_floor h1
      _ = 256 := by exact_mod_cast Int.floor_intCast 256
  rw [min_eq_right (by omega), max_eq_right (by omega)]

/-- The scaled offset of a coordinate inside a nondegenerate interval lies
in [0, 256]. -/
theorem scaled_offset_bounds (a b p : ℝ) (h : a < b) (h1 : a ≤ p) (h2 : p ≤ b) :
    0 ≤ (p - a) / (b - a) * 256 ∧ (p - a) / (b - a) * 256 ≤ 256 := by
  have hba : 0 < b - a := by linarith
  constructor
  · have h3 : 0 ≤ (p - a) / (b - a) := div_nonneg (by linarith) hba.le
    linarith
  · have h4 : (p - a) / (b - a) ≤ 1 := (div_le_one hba).mpr (by linarith)
    linarith

/-- C2: for a point returned by the range query (hence inside the closed
bounding box of a nondegenerate tile), the binning loop computes
px = floor((x − xLeft)/(xRight − xLeft)·256) and
py = floor((yTop − y)/(yTop − yBottom)·256); it drops the point when
(px, py) is outside [0,256)×[0,256) and otherwise increments exactly the
count of cell (px, py) (flat index py·256 + px), leaving all other cells
unchanged. -/
theorem C2_binning (xl xr yb yt : ℝ) (hx : xl < xr) (hy : yb < yt)
    (p : ℝ × ℝ) (hpx1 : xl ≤ p.1) (hpx2 : p.1 ≤ xr)
    (hpy1 : yb ≤ p.2) (hpy2 : p.2 ≤ yt) (cnts : ℕ → ℕ) :
    processPoint xl xr yb yt cnts p =
      if 0 ≤ ⌊(p.1 - xl) / (xr - xl) * 256⌋ ∧
         ⌊(p.1 - xl) / (xr - xl) * 256⌋ < 256 ∧
         0 ≤ ⌊(yt - p.2) / (yt - yb) * 256⌋ ∧
         ⌊(yt - p.2) / (yt - yb) * 256⌋ < 256 then
        fun j =>
          if j = (⌊(yt - p.2) / (yt - yb) * 256⌋ * 256 +
              ⌊(p.1 - xl) / (xr - xl) * 256⌋).toNat
          then cnts j + 1 else cnts j
      else cnts := by
  have hbx := scaled_offset_bounds xl xr p.1 hx hpx1 hpx2
  have e1 : f64_as_i32 ((p.1 - xl) / (xr - xl) * 256) =
      ⌊(p.1 - xl) / (xr - xl) * 256⌋ :=
    f64_as_i32_eq_floor _ hbx.1 hbx.2
  have e2 : f64_as_i32 ((yt - p.2) / (yt - yb) * 256) =
      ⌊(yt - p.2) / (yt - yb) * 256⌋ := by
    apply f64_as_i32_eq_floor
    · have hba : 0 < yt - yb := by linarith
      have h3 : 0 ≤ (yt - p.2) / (yt - yb) := div_nonneg (by linarith) hba.le
      linarith
    · have hba : 0 < yt - yb := by linarith
      have h4 : (yt - p.2) / (yt - yb) ≤ 1 := (div_le_one hba).mpr (by linarith)
      linarith
  simp only [processPoint, binPoint, e1, e2]
  by_cases hc : 0 ≤ ⌊(p.1 - xl) / (xr - xl) * 256⌋ ∧
      ⌊(p.1 - xl) / (xr - xl) * 256⌋ < 256 ∧
      0 ≤ ⌊(yt - p.2) / (yt - yb) * 256⌋ ∧
      ⌊(yt - p.2) / (yt - yb) * 256⌋ < 256
  · simp only [if_pos hc]
  · simp only [if_neg hc]

/-- C2 witness: the unit box [0,256]×[0,256] with the point (100, 30):
the point lands in cell (100, 226), whose count is incremented, all other
cells staying at zero. -/
theorem C2_binning_witness :
    ((0 : ℝ) < 256) ∧
    processPoint 0 256 0 256 (fun _ => 0) (100, 30) 57956 = 1 ∧
    processPoint 0 256 0 256 (fun _ => 0) (100, 30) 0 = 0 := by
  have h := C2_binning 0 256 0 256 (by norm_num) (by norm_num)
    (((100 : ℝ), (30 : ℝ))) (by norm_num) (by norm_num) (by norm_num)
    (by norm_num) (fun _ => 0)
  have e1 : ⌊(((100 : ℝ), (30 : ℝ)).1 - 0) / (256 - 0) * 256⌋ = 100 := by
    have : (((100 : ℝ), (30 : ℝ)).1 - 0) / (256 - 0) * 256 = ((100 : ℤ) : ℝ) := by
      norm_num
    rw [this, Int.floor_intCast]
  have e2 : ⌊((256 : ℝ) - ((100 : ℝ), (30 : ℝ)).2) / (256 - 0) * 256⌋ = 226 := by
    have : ((256 : ℝ) - ((100 : ℝ), (30 : ℝ)).2) / (256 - 0) * 256 =
        ((226 : ℤ) : ℝ) := by
      norm_num
    rw [this, Int.floor_intCast]
  rw [e1, e2] at h
  refine ⟨by norm_num, ?_, ?_⟩
  · rw [h]
    norm_num
    omega
  · rw [h]
    norm_num
    omega

/-- The concrete grid cnts115 has maximum cell count 15. -/
theorem maxCount_cnts115 : maxCount cnts115 = 15 := by
  refine le_antisymm (Finset.sup_le ?_) ?_
  · intro i _
    unfold cnts115
    split_ifs <;> omega
  · calc (15 : ℕ) = cnts115 1 := by norm_num [cnts115]
      _ ≤ maxCount cnts115 :=
          Finset.le_sup (Finset.mem_range.mpr (by norm_num [gridSize]))

/-- The density of a count-1 cell under max 15 is exactly one quarter. -/
theorem log2_div_log16 : Real.log 2 / Real.log 16 = 1 / 4 := by
  rw [show (16 : ℝ) = 2 ^ 4 by norm_num, Real.log_pow]
  have h2 : Real.log 2 ≠ 0 := by positivity
  push_cast
  field_simp
  ring

/-- The square root of one quarter. -/
theorem sqrt_quarter : Real.sqrt (1 / 4) = 1 / 2 := by
  rw [show (1 / 4 : ℝ) = (1 / 2) ^ 2 by norm_num,
    Real.sqrt_sq (by norm_num : (0 : ℝ) ≤ 1 / 2)]

/-- The floor of 255/2. -/
theorem floor_255_halves : ⌊(255 : ℝ) / 2⌋ = 127 := by
  rw [Int.floor_eq_iff] <;> norm_num

/-- Evaluation of color_map at density one quarter: truncation gives red
127, hence blue 128. -/
theorem color_map_quarter : color_map (.finite (1 / 4)) = ⟨127, 0, 128, 255⟩ := by
  simp only [color_map]
  rw [if_neg (by norm_num), ← Real.sqrt_eq_rpow, sqrt_quarter,
    max_eq_left (by norm_num), min_eq_left (by norm_num)]
  simp only [f32_as_u8, truncR]
  rw [if_pos (by norm_num), show (255 : ℝ) * (1 / 2) = 255 / 2 by ring,
    floor_255_halves]
  decide

/-- Evaluation of the rendered pixel of the count-1 cell of cnts115. -/
theorem tileImage_cnts115_cell0 : tileImage cnts115 0 = ⟨127, 0, 128, 255⟩ := by
  unfold tileImage
  rw [if_pos (by rw [maxCount_cnts115]; norm_num)]
  simp only [maxCount_cnts115, show cnts115 0 = 1 from rfl]
  norm_num
  rw [log2_div_log16]
  exact color_map_quarter

/-- Evaluation of the rendered pixel of a count-0 cell of cnts115. -/
theorem tileImage_cnts115_cell2 : tileImage cnts115 2 = ⟨0, 0, 0, 0⟩ := by
  unfold tileImage
  rw [if_pos (by rw [maxCount_cnts115]; norm_num)]
  simp only [show cnts115 2 = 0 from rfl]
  norm_num [color_map]

/-- Evaluation of the claim's pixel formula at count 1, max 15: rounding
gives red 128, blue 127. -/
theorem specC3Pixel_1_15 : specC3Pixel 1 15 = ⟨128, 0, 127, 255⟩ := by
  unfold specC3Pixel
  push_cast
  rw [show (1 : ℝ) + 1 = 2 by norm_num, show (1 : ℝ) + 15 = 16 by norm_num,
    log2_div_log16, sqrt_quarter, max_eq_left (by norm_num),
    min_eq_left (by norm_num), show (255 : ℝ) * (1 / 2) = 255 / 2 by ring,
    if_pos (by norm_num : (0 : ℝ) < 1 / 4)]
  rw [round_eq, show (255 : ℝ) / 2 + 1 / 2 = ((128 : ℤ) : ℝ) by norm_num,
    Int.floor_intCast]
  rfl

/-- Evaluation of the claim's pixel formula at count 0, max 15: blue is
255 on a zero-density cell. -/
theorem specC3Pixel_0_15 : specC3Pixel 0 15 = ⟨0, 0, 255, 0⟩ := by
  unfold specC3Pixel
  push_cast
  rw [show (1 : ℝ) + 0 = 1 by norm_num, Real.log_one, zero_div,
    Real.sqrt_zero, max_eq_left (by norm_num), min_eq_left (by norm_num),
    mul_zero, round_zero, if_neg (by norm_num : ¬(0 : ℝ) < 0)]
  rfl

/-- C3 counterexample: on the grid with one count-1 cell and one count-15
cell, the code's pixel at the count-1 cell is (127, 0, 128, 255) while the
claim's formula (with round) gives (128, 0, 127, 255); and at a count-0
cell the code produces (0, 0, 0, 0) while the claim's formula gives
(0, 0, 255, 0). -/
theorem C3_round_counterexample :
    tileImage cnts115 0 ≠ specC3Pixel (cnts115 0) (maxCount cnts115) ∧
    tileImage cnts115 2 ≠ specC3Pixel (cnts115 2) (maxCount cnts115) := by
  constructor
  · rw [tileImage_cnts115_cell0, maxCount_cnts115,
      show cnts115 0 = 1 from rfl, specC3Pixel_1_15]
    decide
  · rw [tileImage_cnts115_cell2, maxCount_cnts115,
      show cnts115 2 = 0 from rfl, specC3Pixel_0_15]
    decide

/-- C3 (amended): for every cell of a rendered tile whose global maximum
count is positive, the pixel is determined by
value = ln(1+count)/ln(1+maxCount) as follows: a zero-count cell (value =
0) gets the all-zero transparent pixel (0, 0, 0, 0), and a positive-count
cell gets red = floor(255·sqrt(value)) — Rust's truncating cast, not
round —, green = 0, blue = 255 − red, alpha = 255. -/
theorem C3_pixel_formula (counts : ℕ → ℕ) (i : ℕ) (hi : i < gridSize)
    (hpos : 0 < maxCount counts) :
    tileImage counts i =
      if counts i = 0 then ⟨0, 0, 0, 0⟩
      else
        ⟨(⌊255 * Real.sqrt (Real.log (1 + (counts i : ℝ)) /
            Real.log (1 + (maxCount counts : ℝ)))⌋).toNat, 0,
         255 - (⌊255 * Real.sqrt (Real.log (1 + (counts i : ℝ)) /
            Real.log (1 + (maxCount counts : ℝ)))⌋).toNat, 255⟩ := by
  unfold tileImage
  rw [if_pos hpos]
  have hm1 : (1 : ℝ) < 1 + (maxCount counts : ℝ) := by
    have h1 : (1 : ℝ) ≤ (maxCount counts : ℝ) := by exact_mod_cast hpos
    linarith
  have hlogm : 0 < Real.log (1 + (maxCount counts : ℝ)) := Real.log_pos hm1
  by_cases hc : counts i = 0
  · rw [if_pos hc]
    simp only [hc]
    norm_num [color_map]
  · rw [if_neg hc]
    have hc1 : (1 : ℝ) ≤ (counts i : ℝ) := by
      exact_mod_cast Nat.one_le_iff_ne_zero.mpr hc
    have hcm : (counts i : ℝ) ≤ (maxCount counts : ℝ) := by
      exact_mod_cast Finset.le_sup (f := counts) (Finset.mem_range.mpr hi)
    set v := Real.log (1 + (counts i : ℝ)) /
      Real.log (1 + (maxCount counts : ℝ)) with hv
    have hval0 : 0 < v := div_pos (Real.log_pos (by linarith)) hlogm
    have hval1 : v ≤ 1 := by
      rw [hv, div_le_one hlogm]
      have := Real.log_le_log (by linarith : (0 : ℝ) < 1 + (counts i : ℝ))
        (by linarith : (1 : ℝ) + (counts i : ℝ) ≤ 1 + (maxCount counts : ℝ))
      exact this
    simp only [color_map]
    rw [if_neg (not_le.mpr hval0), ← Real.sqrt_eq_rpow]
    have hs0 : 0 ≤ Real.sqrt v := Real.sqrt_nonneg _
    have hs1 : Real.sqrt v ≤ 1 := Real.sqrt_le_one.mpr hval1
    rw [max_eq_left hs0, min_eq_left hs1]
    simp only [f32_as_u8, truncR]
    rw [if_pos (mul_nonneg (by norm_num : (0 : ℝ) ≤ 255) hs0)]
    have hfl0 : (0 : ℤ) ≤ ⌊255 * Real.sqrt v⌋ :=
      Int.floor_nonneg.mpr (mul_nonneg (by norm_num : (0 : ℝ) ≤ 255) hs0)
    have hfl255 : ⌊255 * Real.sqrt v⌋ ≤ 255 := by
      have h2 : (255 : ℝ) * Real.sqrt v ≤ 255 :=
        mul_le_of_le_one_right (by norm_num : (0 : ℝ) ≤ 255) hs1
      calc ⌊255 * Real.sqrt v⌋ ≤ ⌊(255 : ℝ)⌋ := Int.floor_le_floor h2
        _ = 255 := by exact_mod_cast Int.floor_intCast 255
    rw [min_eq_right hfl255, max_eq_right hfl0]

/-- C3 witness: the amended formula instantiated at cell 0 of cnts115,
whose maximum count 15 is positive. -/
theorem C3_pixel_formula_witness :
    (0 : ℕ) < gridSize ∧ 0 < maxCount cnts115 ∧
    tileImage cnts115 0 =
      (if cnts115 0 = 0 then (⟨0, 0, 0, 0⟩ : Rgba)
       else
        ⟨(⌊255 * Real.sqrt (Real.log (1 + (cnts115 0 : ℝ)) /
            Real.log (1 + (maxCount cnts115 : ℝ)))⌋).toNat, 0,
         255 - (⌊255 * Real.sqrt (Real.log (1 + (cnts115 0 : ℝ)) /
            Real.log (1 + (maxCount cnts115 : ℝ)))⌋).toNat, 255⟩) :=
  ⟨by norm_num [gridSize], by rw [maxCount_cnts115]; norm_num,
   C3_pixel_formula cnts115 0 (by norm_num [gridSize])
     (by rw [maxCount_cnts115]; norm_num)⟩

/- ## Claim theorems: projection -/

/-- The Web-Mercator projection is a left inverse of the modelled inverse
conversion on arbitrary meter coordinates (exact in the real-valued
model). -/
theorem lnglat_roundtrip (mx my : ℝ) :
    lnglat_to_meters (meters_to_lnglat (mx, my)).1
      (meters_to_lnglat (mx, my)).2 = (mx, my) := by
  unfold lnglat_to_meters meters_to_lnglat
  have hπ : Real.pi ≠ 0 := Real.pi_ne_zero
  have hπ0 : 0 < Real.pi := Real.pi_pos
  have hS : Real.pi * 6378137 ≠ 0 := by positivity
  simp only [Prod.mk.injEq]
  constructor
  · field_simp
  · have harg : (90 + (360 / Real.pi *
        Real.arctan (Real.exp (my * Real.pi / (Real.pi * 6378137))) - 90)) *
          Real.pi / 360 =
        Real.arctan (Real.exp (my * Real.pi / (Real.pi * 6378137))) := by
      field_simp
      ring
    rw [harg, Real.tan_arctan, Real.log_exp]
    field_simp

/-- C5: for every valid tile address, converting the tile to Web-Mercator
meters, then to lon/lat via the (spec-modelled) inverse, and re-projecting
through lngLatToMeters recovers exactly the same meter coordinates (the
real-valued model needs no floating-point tolerance). -/
theorem C5_projection_roundtrip (xt yt zoom : ℕ)
    (hx : xt < 2 ^ zoom) (hy : yt < 2 ^ zoom) :
    lnglat_to_meters (meters_to_lnglat (tile2mercator xt yt zoom)).1
      (meters_to_lnglat (tile2mercator xt yt zoom)).2 =
      tile2mercator xt yt zoom := by
  obtain ⟨mx, my⟩ := tile2mercator xt yt zoom
  exact lnglat_roundtrip mx my

/-- C5 witness: the round-trip at the single valid tile of zoom 0. -/
theorem C5_projection_roundtrip_witness :
    0 < 2 ^ 0 ∧
    lnglat_to_meters (meters_to_lnglat (tile2mercator 0 0 0)).1
      (meters_to_lnglat (tile2mercator 0 0 0)).2 = tile2mercator 0 0 0 :=
  ⟨by norm_num, C5_projection_roundtrip 0 0 0 (by norm_num) (by norm_num)⟩

end Tilerust
